import Mathlib

/-!
# Verification of the Caliber stats aggregator and request cache

Shallow embedding of the `GET /api/evals/stats` route (stats aggregator)
and of the client request cache, together with theorems about the
properties stated in the specification.

Timestamps are modelled as seconds since the Unix epoch (UTC); a UTC
calendar day key (the `YYYY-MM-DD` slice of an ISO timestamp string in the
source) is modelled as the day index `created_at / 86400`.  Numeric values
are modelled as rationals; the output-time roundings (`toFixed(1)`,
`toFixed(0)`, `Math.round`) are modelled as rounding to one decimal place
respectively to the nearest integer.
-/

namespace Caliber

/-- Decidable equality of fallible results, so that concrete runs of the
route can be checked by evaluation. -/
instance {ε α : Type} [DecidableEq ε] [DecidableEq α] : DecidableEq (Except ε α) :=
  fun x y =>
    match x, y with
    | Except.ok a, Except.ok b =>
      if h : a = b then isTrue (by rw [h]) else isFalse (by intro hc; cases hc; exact h rfl)
    | Except.error a, Except.error b =>
      if h : a = b then isTrue (by rw [h]) else isFalse (by intro hc; cases hc; exact h rfl)
    | Except.ok _, Except.error _ => isFalse (by intro hc; cases hc)
    | Except.error _, Except.ok _ => isFalse (by intro hc; cases hc)

/-- A row of the `evaluations` table, as selected by the stats route:
`created_at, score, latency_ms, pii_tokens_redacted`, plus the `user_id`
column the route filters on. -/
structure EvalRow where
  user_id : String
  created_at : Nat
  score : ℚ
  latency_ms : ℚ
  pii_tokens_redacted : Option Nat
deriving DecidableEq, Repr

/-- Seconds in a UTC calendar day. -/
def secondsPerDay : Nat := 86400

/-- `dateKeyFromCreatedAt` in the source slices the first 10 characters of
the ISO timestamp, i.e. maps a timestamp to its UTC calendar day. -/
def dateKeyFromCreatedAt (t : Nat) : Int := ((t / secondsPerDay : Nat) : Int)

/-- The UTC calendar day of `now` (`new Date()` with `setUTCHours(0,0,0,0)`
identifies today's UTC day). -/
def todayIdx (now : Nat) : Int := ((now / secondsPerDay : Nat) : Int)

/-- The first day of the window: `startUtc.setUTCDate(getUTCDate() - (days - 1))`. -/
def startDayIdx (now : Nat) (days : Int) : Int := todayIdx now - (days - 1)

/-- `startUtc.toISOString()` as a timestamp: midnight UTC of the first day. -/
def startTs (now : Nat) (days : Int) : Int := startDayIdx now days * (secondsPerDay : Int)

/-- Per-day accumulator entry of the `dailyMap`. -/
@[ext]
structure DayAcc where
  count : Nat
  totalScore : ℚ
  totalLatency : ℚ
deriving DecidableEq, Repr

/-- The `scoreDistribution` object. -/
@[ext]
structure ScoreDistribution where
  excellent : Nat
  good : Nat
  fair : Nat
  poor : Nat
deriving DecidableEq, Repr

/-- The running accumulators of the aggregation loop.  The `dailyMap` is
modelled as a total function from day keys to `DayAcc`, absent keys mapping
to the zero entry (the source reads `dailyMap.get(k) || zero`). -/
@[ext]
structure Acc where
  total : Nat
  totalScore : ℚ
  totalLatency : ℚ
  successCount : Nat
  totalPiiRedacted : Nat
  dist : ScoreDistribution
  daily : Int → DayAcc

/-- Initial accumulator state. -/
def acc0 : Acc :=
  { total := 0, totalScore := 0, totalLatency := 0, successCount := 0
    totalPiiRedacted := 0, dist := ⟨0, 0, 0, 0⟩, daily := fun _ => ⟨0, 0, 0⟩ }

/-- The body of `for (const e of page)`: updates every running total for one
row, exactly as the source does. -/
def stepRow (a : Acc) (e : EvalRow) : Acc :=
  let dist :=
    if 90 ≤ e.score then { a.dist with excellent := a.dist.excellent + 1 }
    else if 70 ≤ e.score then { a.dist with good := a.dist.good + 1 }
    else if 50 ≤ e.score then { a.dist with fair := a.dist.fair + 1 }
    else { a.dist with poor := a.dist.poor + 1 }
  let k := dateKeyFromCreatedAt e.created_at
  { total := a.total + 1
    totalScore := a.totalScore + e.score
    totalLatency := a.totalLatency + e.latency_ms
    successCount := if 70 ≤ e.score then a.successCount + 1 else a.successCount
    totalPiiRedacted := a.totalPiiRedacted + e.pii_tokens_redacted.getD 0
    dist := dist
    daily := fun k2 =>
      if k2 = k then
        ⟨(a.daily k).count + 1, (a.daily k).totalScore + e.score,
          (a.daily k).totalLatency + e.latency_ms⟩
      else a.daily k2 }

/-- `const pageSize = 1000`. -/
def pageSize : Nat := 1000

/-- The loop guard `offset < 100000`. -/
def offsetCeiling : Nat := 100000

/-- Number of iterations the `for` loop can perform: offsets
`0, 1000, …, 99000`. -/
def maxPages : Nat := offsetCeiling / pageSize

/-- The paginated aggregation loop
`for (let offset = 0; offset < 100000; offset += pageSize)`, with the page
fetch abstracted as a function from the offset to either an error or a page.
Fuel counts the remaining iterations before the `offset < 100000` guard
fails; when it does, the loop exits normally with the accumulated state. -/
def aggPages (fetch : Nat → Except String (List EvalRow)) :
    Nat → Nat → Acc → Except String Acc
  | 0, _, a => Except.ok a
  | fuel + 1, offset, a =>
    match fetch offset with
    | Except.error e => Except.error e
    | Except.ok page =>
      if page.length = 0 then Except.ok a
      else
        let a2 := page.foldl stepRow a
        if page.length < pageSize then Except.ok a2
        else aggPages fetch fuel (offset + pageSize) a2

/-- Rounding to the nearest integer, halves up: `⌊q + 1/2⌋` computed directly
on the numerator and denominator so that it evaluates by kernel reduction. -/
def jsRound (q : ℚ) : ℤ := (2 * q.num + (q.den : ℤ)) / (2 * (q.den : ℤ))

/-- `parseFloat(x.toFixed(1))`: round to one decimal place. -/
def round1 (q : ℚ) : ℚ := ((jsRound (10 * q) : ℤ) : ℚ) / 10

/-- `Math.round(x)` / `parseFloat(x.toFixed(0))`: round to nearest integer. -/
def round0 (q : ℚ) : ℚ := ((jsRound q : ℤ) : ℚ)

/-- One point of the `dailyTrends` series. -/
structure DailyPoint where
  date : Int
  count : Nat
  avgScore : ℚ
  avgLatency : ℚ
deriving DecidableEq, Repr

/-- The JSON payload of a successful stats response. -/
structure StatsData where
  totalEvals : Nat
  avgScore : ℚ
  avgLatency : ℚ
  successRate : ℚ
  totalPiiRedacted : Nat
  dailyTrends : List DailyPoint
  scoreDistribution : ScoreDistribution
deriving DecidableEq, Repr

/-- The `dailyTrends` map body: look the day up in the map; a missing or
zero-count day is emitted zero-filled, otherwise averages are computed and
rounded. -/
def dailyPointFor (a : Acc) (date : Int) : DailyPoint :=
  let data := a.daily date
  if data.count = 0 then ⟨date, 0, 0, 0⟩
  else
    ⟨date, data.count, round1 (data.totalScore / (data.count : ℚ)),
      round0 (data.totalLatency / (data.count : ℚ))⟩

/-- Construction of the response payload from the final accumulator state,
exactly as the source computes `avgScore`, `avgLatency`, `successRate`,
`dailyTrends` and `scoreDistribution`. -/
def buildStats (now : Nat) (days : Int) (a : Acc) : StatsData :=
  let avgScore : ℚ := if 0 < a.total then a.totalScore / (a.total : ℚ) else 0
  let avgLatency : ℚ := if 0 < a.total then a.totalLatency / (a.total : ℚ) else 0
  let successRate : ℚ :=
    if 0 < a.total then ((a.successCount : ℚ) / (a.total : ℚ)) * 100 else 0
  { totalEvals := a.total
    avgScore := round1 avgScore
    avgLatency := round0 avgLatency
    successRate := round1 successRate
    totalPiiRedacted := a.totalPiiRedacted
    dailyTrends :=
      (List.range days.toNat).map fun (idx : Nat) =>
        dailyPointFor a (startDayIdx now days + (idx : Int))
    scoreDistribution := a.dist }

/-- The route handler, generic in the page-fetch capability (which receives
the `created_at` lower bound and the page offset).  A missing `days`
parameter defaults to 7 (`searchParams.get('days') || '7'`). -/
def GETwith (fetchAt : Int → Nat → Except String (List EvalRow)) (now : Nat)
    (daysParam : Option Int) : Except String StatsData :=
  match aggPages (fetchAt (startTs now (daysParam.getD 7))) maxPages 0 acc0 with
  | Except.error e => Except.error e
  | Except.ok a => Except.ok (buildStats now (daysParam.getD 7) a)

/-- The filter of the store query:
`.eq('user_id', user.id).gte('created_at', startUtc.toISOString())`. -/
def matchesQuery (uid : String) (ts : Int) (r : EvalRow) : Bool :=
  r.user_id == uid && decide (ts ≤ (r.created_at : Int))

/-- The rows the query ranges over: the tenant's rows at or after the
threshold, ordered by `created_at` ascending. -/
def sortedMatching (db : List EvalRow) (uid : String) (ts : Int) : List EvalRow :=
  List.insertionSort (fun r1 r2 => r1.created_at ≤ r2.created_at)
    (db.filter (matchesQuery uid ts))

/-- The backing-store page fetch: `.range(offset, offset + pageSize - 1)`
returns rows `offset … offset + pageSize - 1` of the ordered, filtered
result set, and never errors. -/
def dbFetch (db : List EvalRow) (uid : String) : Int → Nat → Except String (List EvalRow) :=
  fun ts offset => Except.ok (((sortedMatching db uid ts).drop offset).take pageSize)

/-- The stats route evaluated against a backing store modelled as a list of
rows (all tenants), for the authenticated user `uid` at time `now`. -/
def GETdb (db : List EvalRow) (uid : String) (now : Nat) (daysParam : Option Int) :
    Except String StatsData :=
  GETwith (dbFetch db uid) now daysParam

/-- Reference aggregation for the refinement claim: a direct single pass
over all of the tenant's matching records (no pagination), feeding the same
output construction. -/
def GETsingle (db : List EvalRow) (uid : String) (now : Nat) (daysParam : Option Int) :
    Except String StatsData :=
  Except.ok (buildStats now (daysParam.getD 7)
    ((db.filter (matchesQuery uid (startTs now (daysParam.getD 7)))).foldl stepRow acc0))

/-- Success predicate of a row: `score >= 70`. -/
def isSuccess (r : EvalRow) : Bool := decide (70 ≤ r.score)

/-- Bucket predicate: `score >= 90`. -/
def isExcellent (r : EvalRow) : Bool := decide (90 ≤ r.score)

/-- Bucket predicate: `70 <= score < 90`. -/
def isGood (r : EvalRow) : Bool := decide (70 ≤ r.score) && !decide (90 ≤ r.score)

/-- Bucket predicate: `50 <= score < 70`. -/
def isFair (r : EvalRow) : Bool := decide (50 ≤ r.score) && !decide (70 ≤ r.score)

/-- Bucket predicate: `score < 50`. -/
def isPoor (r : EvalRow) : Bool := !decide (50 ≤ r.score)

/-- Day-bucket membership: the row's UTC calendar day is `k`. -/
def onDay (k : Int) (r : EvalRow) : Bool := decide (dateKeyFromCreatedAt r.created_at = k)

/-! ## Closed forms of the per-row fold -/

theorem foldl_stepRow_total (l : List EvalRow) :
    ∀ a : Acc, (l.foldl stepRow a).total = a.total + l.length := by
  induction l with
  | nil => intro a; simp
  | cons r l ih =>
    intro a
    have hr : (stepRow a r).total = a.total + 1 := rfl
    simp [List.foldl_cons, ih, hr]
    omega

theorem foldl_stepRow_totalScore (l : List EvalRow) :
    ∀ a : Acc, (l.foldl stepRow a).totalScore = a.totalScore + (l.map EvalRow.score).sum := by
  induction l with
  | nil => intro a; simp
  | cons r l ih =>
    intro a
    have hr : (stepRow a r).totalScore = a.totalScore + r.score := rfl
    simp [List.foldl_cons, ih, hr]
    ring

theorem foldl_stepRow_totalLatency (l : List EvalRow) :
    ∀ a : Acc,
      (l.foldl stepRow a).totalLatency = a.totalLatency + (l.map EvalRow.latency_ms).sum := by
  induction l with
  | nil => intro a; simp
  | cons r l ih =>
    intro a
    have hr : (stepRow a r).totalLatency = a.totalLatency + r.latency_ms := rfl
    simp [List.foldl_cons, ih, hr]
    ring

theorem foldl_stepRow_successCount (l : List EvalRow) :
    ∀ a : Acc, (l.foldl stepRow a).successCount = a.successCount + l.countP isSuccess := by
  induction l with
  | nil => intro a; simp
  | cons r l ih =>
    intro a
    have hr : (stepRow a r).successCount
        = if 70 ≤ r.score then a.successCount + 1 else a.successCount := rfl
    by_cases h : 70 ≤ r.score <;>
      simp [List.foldl_cons, ih, hr, List.countP_cons, isSuccess, h] <;> omega

theorem foldl_stepRow_pii (l : List EvalRow) :
    ∀ a : Acc,
      (l.foldl stepRow a).totalPiiRedacted
        = a.totalPiiRedacted + (l.map (fun r => r.pii_tokens_redacted.getD 0)).sum := by
  induction l with
  | nil => intro a; simp
  | cons r l ih =>
    intro a
    have hr : (stepRow a r).totalPiiRedacted
        = a.totalPiiRedacted + r.pii_tokens_redacted.getD 0 := rfl
    simp [List.foldl_cons, ih, hr]
    omega

theorem stepRow_dist (a : Acc) (r : EvalRow) :
    (stepRow a r).dist
      = if 90 ≤ r.score then { a.dist with excellent := a.dist.excellent + 1 }
        else if 70 ≤ r.score then { a.dist with good := a.dist.good + 1 }
        else if 50 ≤ r.score then { a.dist with fair := a.dist.fair + 1 }
        else { a.dist with poor := a.dist.poor + 1 } := rfl

theorem foldl_stepRow_excellent (l : List EvalRow) :
    ∀ a : Acc, (l.foldl stepRow a).dist.excellent = a.dist.excellent + l.countP isExcellent := by
  induction l with
  | nil => intro a; simp
  | cons r l ih =>
    intro a
    by_cases h90 : 90 ≤ r.score
    · simp [List.foldl_cons, ih, stepRow_dist, List.countP_cons, isExcellent, h90]
      omega
    · by_cases h70 : 70 ≤ r.score <;> by_cases h50 : 50 ≤ r.score <;>
        simp [List.foldl_cons, ih, stepRow_dist, List.countP_cons, isExcellent, h90, h70, h50]

theorem foldl_stepRow_good (l : List EvalRow) :
    ∀ a : Acc, (l.foldl stepRow a).dist.good = a.dist.good + l.countP isGood := by
  induction l with
  | nil => intro a; simp
  | cons r l ih =>
    intro a
    by_cases h90 : 90 ≤ r.score <;> by_cases h70 : 70 ≤ r.score <;>
      by_cases h50 : 50 ≤ r.score <;>
      simp [List.foldl_cons, ih, stepRow_dist, List.countP_cons, isGood, h90, h70, h50] <;>
      first
      | omega
      | linarith

theorem foldl_stepRow_fair (l : List EvalRow) :
    ∀ a : Acc, (l.foldl stepRow a).dist.fair = a.dist.fair + l.countP isFair := by
  induction l with
  | nil => intro a; simp
  | cons r l ih =>
    intro a
    by_cases h90 : 90 ≤ r.score <;> by_cases h70 : 70 ≤ r.score <;>
      by_cases h50 : 50 ≤ r.score <;>
      simp [List.foldl_cons, ih, stepRow_dist, List.countP_cons, isFair, h90, h70, h50] <;>
      first
      | omega
      | linarith

theorem foldl_stepRow_poor (l : List EvalRow) :
    ∀ a : Acc, (l.foldl stepRow a).dist.poor = a.dist.poor + l.countP isPoor := by
  induction l with
  | nil => intro a; simp
  | cons r l ih =>
    intro a
    by_cases h90 : 90 ≤ r.score <;> by_cases h70 : 70 ≤ r.score <;>
      by_cases h50 : 50 ≤ r.score <;>
      simp [List.foldl_cons, ih, stepRow_dist, List.countP_cons, isPoor, h90, h70, h50] <;>
      first
      | omega
      | linarith

theorem stepRow_daily (a : Acc) (r : EvalRow) (k : Int) :
    (stepRow a r).daily k
      = if k = dateKeyFromCreatedAt r.created_at then
          ⟨(a.daily (dateKeyFromCreatedAt r.created_at)).count + 1,
            (a.daily (dateKeyFromCreatedAt r.created_at)).totalScore + r.score,
            (a.daily (dateKeyFromCreatedAt r.created_at)).totalLatency + r.latency_ms⟩
        else a.daily k := rfl

theorem foldl_stepRow_daily_count (l : List EvalRow) (k : Int) :
    ∀ a : Acc, ((l.foldl stepRow a).daily k).count
      = (a.daily k).count + l.countP (onDay k) := by
  induction l with
  | nil => intro a; simp
  | cons r l ih =>
    intro a
    by_cases h : dateKeyFromCreatedAt r.created_at = k
    · simp [List.foldl_cons, ih, stepRow_daily, List.countP_cons, onDay, h]
      omega
    · have h2 : ¬ k = dateKeyFromCreatedAt r.created_at := fun hk => h hk.symm
      simp [List.foldl_cons, ih, stepRow_daily, List.countP_cons, onDay, h, h2]

theorem foldl_stepRow_daily_score (l : List EvalRow) (k : Int) :
    ∀ a : Acc, ((l.foldl stepRow a).daily k).totalScore
      = (a.daily k).totalScore + ((l.filter (onDay k)).map EvalRow.score).sum := by
  induction l with
  | nil => intro a; simp
  | cons r l ih =>
    intro a
    by_cases h : dateKeyFromCreatedAt r.created_at = k
    · simp [List.foldl_cons, ih, stepRow_daily, List.filter_cons, onDay, h]
      ring
    · have h2 : ¬ k = dateKeyFromCreatedAt r.created_at := fun hk => h hk.symm
      simp [List.foldl_cons, ih, stepRow_daily, List.filter_cons, onDay, h, h2]

theorem foldl_stepRow_daily_latency (l : List EvalRow) (k : Int) :
    ∀ a : Acc, ((l.foldl stepRow a).daily k).totalLatency
      = (a.daily k).totalLatency + ((l.filter (onDay k)).map EvalRow.latency_ms).sum := by
  induction l with
  | nil => intro a; simp
  | cons r l ih =>
    intro a
    by_cases h : dateKeyFromCreatedAt r.created_at = k
    · simp [List.foldl_cons, ih, stepRow_daily, List.filter_cons, onDay, h]
      ring
    · have h2 : ¬ k = dateKeyFromCreatedAt r.created_at := fun hk => h hk.symm
      simp [List.foldl_cons, ih, stepRow_daily, List.filter_cons, onDay, h, h2]

/-- The fold of the aggregation over a list of rows is invariant under
permutation of the rows: every accumulator field is an order-independent
sum or count. -/
theorem foldl_stepRow_perm {l1 l2 : List EvalRow} (h : l1.Perm l2) (a : Acc) :
    l1.foldl stepRow a = l2.foldl stepRow a := by
  ext k
  · rw [foldl_stepRow_total, foldl_stepRow_total, h.length_eq]
  · rw [foldl_stepRow_totalScore, foldl_stepRow_totalScore, (h.map EvalRow.score).sum_eq]
  · rw [foldl_stepRow_totalLatency, foldl_stepRow_totalLatency,
      (h.map EvalRow.latency_ms).sum_eq]
  · rw [foldl_stepRow_successCount, foldl_stepRow_successCount, h.countP_eq isSuccess]
  · rw [foldl_stepRow_pii, foldl_stepRow_pii,
      (h.map (fun r => r.pii_tokens_redacted.getD 0)).sum_eq]
  · rw [foldl_stepRow_excellent, foldl_stepRow_excellent, h.countP_eq isExcellent]
  · rw [foldl_stepRow_good, foldl_stepRow_good, h.countP_eq isGood]
  · rw [foldl_stepRow_fair, foldl_stepRow_fair, h.countP_eq isFair]
  · rw [foldl_stepRow_poor, foldl_stepRow_poor, h.countP_eq isPoor]
  · rw [foldl_stepRow_daily_count, foldl_stepRow_daily_count, h.countP_eq (onDay k)]
  · rw [foldl_stepRow_daily_score, foldl_stepRow_daily_score,
      ((h.filter (onDay k)).map EvalRow.score).sum_eq]
  · rw [foldl_stepRow_daily_latency, foldl_stepRow_daily_latency,
      ((h.filter (onDay k)).map EvalRow.latency_ms).sum_eq]

/-! ## Characterization of the pagination loop over an error-free store -/

theorem aggPages_pure (l : List EvalRow) :
    ∀ (k offset : Nat) (a : Acc),
      aggPages (fun off => Except.ok ((l.drop off).take pageSize)) k offset a
        = Except.ok (((l.drop offset).take (k * pageSize)).foldl stepRow a) := by
  intro k
  induction k with
  | zero =>
    intro offset a
    simp [aggPages]
  | succ k ih =>
    intro offset a
    by_cases h0 : ((l.drop offset).take pageSize).length = 0
    · have hpage : (l.drop offset).take pageSize = [] := List.eq_nil_of_length_eq_zero h0
      have hrest : l.drop offset = [] := by
        rcases (List.take_eq_nil_iff).mp hpage with h | h
        · exact absurd h (by decide)
        · exact h
      simp [aggPages, hrest]
    · by_cases hshort : ((l.drop offset).take pageSize).length < pageSize
      · have hlen : (l.drop offset).length < pageSize := by
          have h1 := List.length_take pageSize (l.drop offset)
          omega
        have hlen2 : l.length - offset < pageSize := by
          have h2 := List.length_drop offset l
          omega
        have hne : ¬ l.length - offset = 0 := by
          have h1 := List.length_take pageSize (l.drop offset)
          have h2 := List.length_drop offset l
          omega
        have hpage : (l.drop offset).take pageSize = l.drop offset :=
          List.take_of_length_le (Nat.le_of_lt hlen)
        have hall : (l.drop offset).take ((k + 1) * pageSize) = l.drop offset :=
          List.take_of_length_le (le_trans (Nat.le_of_lt hlen)
            (by have h3 : 1 * pageSize ≤ (k + 1) * pageSize :=
                  Nat.mul_le_mul_right pageSize (by omega)
                omega))
        simp [aggPages, hpage, h0, hshort, hall, hne, hlen2]
      · have hfull : ((l.drop offset).take pageSize).length = pageSize := by
          have h1 := List.length_take pageSize (l.drop offset)
          omega
        have hge : ¬ l.length - offset < pageSize := by
          have h1 := List.length_take pageSize (l.drop offset)
          have h2 := List.length_drop offset l
          omega
        have hne : ¬ (pageSize = 0 ∨ l.length - offset = 0) := by
          have h1 := List.length_take pageSize (l.drop offset)
          have h2 := List.length_drop offset l
          have h3 : pageSize ≠ 0 := by decide
          omega
        have step :
            aggPages (fun off => Except.ok ((l.drop off).take pageSize)) (k + 1) offset a
              = aggPages (fun off => Except.ok ((l.drop off).take pageSize)) k
                  (offset + pageSize) (((l.drop offset).take pageSize).foldl stepRow a) := by
          simp [aggPages, h0, hshort, hne, hge]
        rw [step, ih]
        have hsplit :
            (l.drop offset).take ((k + 1) * pageSize)
              = (l.drop offset).take pageSize
                  ++ (l.drop (offset + pageSize)).take (k * pageSize) := by
          have h1 : (k + 1) * pageSize = pageSize + k * pageSize := by ring

          rw [h1, List.take_add]
          congr 1
          rw [List.drop_drop]
        rw [hsplit, List.foldl_append]

theorem GETdb_eq (db : List EvalRow) (uid : String) (now : Nat) (daysParam : Option Int) :
    GETdb db uid now daysParam
      = Except.ok (buildStats now (daysParam.getD 7)
          (((sortedMatching db uid (startTs now (daysParam.getD 7))).take
              offsetCeiling).foldl stepRow acc0)) := by
  unfold GETdb GETwith dbFetch
  rw [aggPages_pure (sortedMatching db uid (startTs now (daysParam.getD 7)))
      maxPages 0 acc0]
  simp only [List.drop_zero]
  norm_num [maxPages, pageSize, offsetCeiling]

/-- The ordered result set is a permutation of the filtered store. -/
theorem sortedMatching_perm (db : List EvalRow) (uid : String) (ts : Int) :
    (sortedMatching db uid ts).Perm (db.filter (matchesQuery uid ts)) :=
  List.perm_insertionSort _ _

/-- Both branches of the daily-trends construction emit the looked-up date. -/
theorem dailyPointFor_date (a : Acc) (d : Int) : (dailyPointFor a d).date = d := by
  by_cases h : (a.daily d).count = 0 <;> simp [dailyPointFor, h]

/-- Both branches of the daily-trends construction emit the map count (the
zero-filled branch is taken exactly when the count is zero). -/
theorem dailyPointFor_count (a : Acc) (d : Int) :
    (dailyPointFor a d).count = (a.daily d).count := by
  by_cases h : (a.daily d).count = 0 <;> simp [dailyPointFor, h]

/-- A timestamp at or after midnight of day `sd` lies on day `sd` or later. -/
theorem startDay_le_dateKey {c : Nat} {sd : Int}
    (h : sd * (secondsPerDay : Int) ≤ (c : Int)) : sd ≤ dateKeyFromCreatedAt c := by
  unfold dateKeyFromCreatedAt
  rcases le_or_lt sd 0 with hsd | hsd
  · exact le_trans hsd (Int.natCast_nonneg _)
  · lift sd to ℕ using le_of_lt hsd with m hm
    rw [Nat.cast_le]
    have hc : m * secondsPerDay ≤ c := by exact_mod_cast h
    exact (Nat.le_div_iff_mul_le (by norm_num [secondsPerDay])).mpr hc

/-- Summing the one-day indicator of a key over a range of consecutive days
gives the in-window indicator. -/
theorem sum_indicator_range (k s : Int) (n : Nat) :
    ((List.range n).map fun (i : Nat) => if k = s + (i : Int) then (1 : Nat) else 0).sum
      = if s ≤ k ∧ k < s + (n : Int) then 1 else 0 := by
  induction n with
  | zero =>
    simp only [List.range_zero, List.map_nil, List.sum_nil]
    rw [if_neg (by omega)]
  | succ n ih =>
    rw [List.range_succ, List.map_append, List.sum_append, ih]
    simp only [List.map_cons, List.map_nil, List.sum_cons, List.sum_nil]
    by_cases hk : k = s + (n : Int)
    · rw [if_neg (by omega), if_pos hk, if_pos (by omega)]
      omega
    · rw [if_neg hk]
      by_cases hin : s ≤ k ∧ k < s + (n : Int)
      · rw [if_pos hin, if_pos (by omega)]
        omega
      · rw [if_neg hin, if_neg (by omega)]
        omega

/-- Summing the per-day counts of a list of rows over a range of consecutive
days counts the rows whose day falls in the window. -/
theorem sum_range_onDay (l : List EvalRow) (s : Int) (n : Nat) :
    ((List.range n).map fun (i : Nat) => l.countP (onDay (s + (i : Int)))).sum
      = l.countP fun r =>
          decide (s ≤ dateKeyFromCreatedAt r.created_at
            ∧ dateKeyFromCreatedAt r.created_at < s + (n : Int)) := by
  induction l with
  | nil => simp
  | cons r l ih =>
    have hcons : ∀ i : Nat,
        (r :: l).countP (onDay (s + (i : Int)))
          = l.countP (onDay (s + (i : Int)))
            + if dateKeyFromCreatedAt r.created_at = s + (i : Int) then 1 else 0 := by
      intro i
      rw [List.countP_cons]
      by_cases h : dateKeyFromCreatedAt r.created_at = s + (i : Int) <;>
        simp [onDay, h]
    simp only [hcons, List.sum_map_add, ih, List.countP_cons]
    rw [sum_indicator_range (dateKeyFromCreatedAt r.created_at) s n]
    by_cases hin : s ≤ dateKeyFromCreatedAt r.created_at
        ∧ dateKeyFromCreatedAt r.created_at < s + (n : Int) <;>
      simp [hin]

/-- Every row lands in exactly one score bucket. -/
theorem countP_buckets_partition (l : List EvalRow) :
    l.countP isExcellent + l.countP isGood + l.countP isFair + l.countP isPoor
      = l.length := by
  induction l with
  | nil => simp
  | cons r l ih =>
    simp only [List.countP_cons, List.length_cons]
    by_cases h90 : (90 : ℚ) ≤ r.score <;> by_cases h70 : (70 : ℚ) ≤ r.score <;>
      by_cases h50 : (50 : ℚ) ≤ r.score <;>
      simp [isExcellent, isGood, isFair, isPoor, h90, h70, h50] <;>
      first
      | omega
      | linarith

/-- The success rows are exactly the excellent and good buckets. -/
theorem countP_success_split (l : List EvalRow) :
    l.countP isSuccess = l.countP isExcellent + l.countP isGood := by
  induction l with
  | nil => simp
  | cons r l ih =>
    simp only [List.countP_cons]
    by_cases h90 : (90 : ℚ) ≤ r.score <;> by_cases h70 : (70 : ℚ) ≤ r.score <;>
      simp [isSuccess, isExcellent, isGood, h90, h70] <;>
      first
      | omega
      | linarith

/-- A fixed concrete clock used by concrete instances: day index 100. -/
def nowC : Nat := 86400 * 100

/-- A concrete row of the authenticated tenant, created at `nowC`. -/
def rowA : EvalRow := ⟨"u", 86400 * 100, 80, 100, none⟩

/-- `round1` of zero is zero. -/
theorem round1_zero : round1 0 = 0 := by
  norm_num [round1, jsRound]

/-! ## Claim theorems -/

/-- C2: the paginated aggregation loop (page size 1000, stopping on an empty
or short page) computes the same response — all totals, rates, score
distribution and per-day buckets — as a direct single-pass aggregation over
all of the tenant's matching records, whenever the matching rows fit under
the loop's offset ceiling (in particular when they exceed one page size). -/
theorem C2_pagination_matches_single_pass (db : List EvalRow) (uid : String)
    (now : Nat) (daysParam : Option Int)
    (hlen : (db.filter (matchesQuery uid (startTs now (daysParam.getD 7)))).length
      ≤ offsetCeiling) :
    GETdb db uid now daysParam = GETsingle db uid now daysParam := by
  rw [GETdb_eq]
  unfold GETsingle
  have hperm := sortedMatching_perm db uid (startTs now (daysParam.getD 7))
  have hlen2 : (sortedMatching db uid (startTs now (daysParam.getD 7))).length
      ≤ offsetCeiling := by
    rw [hperm.length_eq]
    exact hlen
  rw [List.take_of_length_le hlen2, foldl_stepRow_perm hperm]

/-- Witness for C2 at a concrete store of one matching row. -/
theorem C2_witness :
    GETdb [rowA] "u" nowC (some 7) = GETsingle [rowA] "u" nowC (some 7) :=
  C2_pagination_matches_single_pass [rowA] "u" nowC (some 7) (by decide)

/-- C5: the response depends only on the authenticated tenant's rows — two
stores that agree on the requesting tenant's rows produce identical
responses, whatever the rows of other tenants are. -/
theorem C5_tenant_isolation (db1 db2 : List EvalRow) (uid : String) (now : Nat)
    (daysParam : Option Int)
    (h : db1.filter (fun r => r.user_id == uid) = db2.filter (fun r => r.user_id == uid)) :
    GETdb db1 uid now daysParam = GETdb db2 uid now daysParam := by
  have hts : ∀ db : List EvalRow,
      db.filter (matchesQuery uid (startTs now (daysParam.getD 7)))
        = (db.filter (fun r => r.user_id == uid)).filter
            (fun r => decide (startTs now (daysParam.getD 7) ≤ (r.created_at : Int))) := by
    intro db
    rw [List.filter_filter]
    exact List.filter_congr fun x _ => by simp [matchesQuery, Bool.and_comm]
  rw [GETdb_eq, GETdb_eq]
  unfold sortedMatching
  rw [hts db1, hts db2, h]

/-- Witness for C5: a store holding only another tenant's row is
indistinguishable from the empty store. -/
theorem C5_witness :
    GETdb [⟨"v", 86400 * 100, 10, 5, some 3⟩] "u" nowC (some 7)
      = GETdb [] "u" nowC (some 7) :=
  C5_tenant_isolation [⟨"v", 86400 * 100, 10, 5, some 3⟩] [] "u" nowC (some 7)
    (by decide)

/-- C10: in every successful response each counted record falls into exactly
one score bucket, so the four buckets sum to `totalEvals`, and the success
count underlying `successRate` (records with score ≥ 70) is the excellent
bucket plus the good bucket. -/
theorem C10_buckets_partition (db : List EvalRow) (uid : String) (now : Nat)
    (daysParam : Option Int) (s : StatsData)
    (hs : GETdb db uid now daysParam = Except.ok s) :
    s.scoreDistribution.excellent + s.scoreDistribution.good
        + s.scoreDistribution.fair + s.scoreDistribution.poor = s.totalEvals
    ∧ s.successRate
        = (if s.totalEvals = 0 then 0
           else round1 ((((s.scoreDistribution.excellent
              + s.scoreDistribution.good : Nat) : ℚ) / (s.totalEvals : ℚ)) * 100)) := by
  rw [GETdb_eq] at hs
  injection hs with hs
  subst hs
  set L := (sortedMatching db uid (startTs now (daysParam.getD 7))).take offsetCeiling
    with hL
  simp only [buildStats]
  rw [foldl_stepRow_excellent, foldl_stepRow_good, foldl_stepRow_fair,
    foldl_stepRow_poor, foldl_stepRow_total, foldl_stepRow_successCount,
    countP_success_split]
  simp only [acc0, Nat.zero_add]
  constructor
  · exact countP_buckets_partition L
  · by_cases h0 : L.length = 0
    · rw [if_pos h0, if_neg (by omega), round1_zero]
    · rw [if_neg h0, if_pos (by omega)]

/-- Witness for C10 at a one-row store: 80 lands in the good bucket, the
buckets sum to the total, and the success rate is built from
excellent + good. -/
theorem C10_witness :
    (let s : StatsData := ⟨1, 80, 100, 100, 0, [⟨100, 1, 80, 100⟩], ⟨0, 1, 0, 0⟩⟩
     s.scoreDistribution.excellent + s.scoreDistribution.good
         + s.scoreDistribution.fair + s.scoreDistribution.poor = s.totalEvals
     ∧ s.successRate
         = (if s.totalEvals = 0 then 0
            else round1 ((((s.scoreDistribution.excellent
               + s.scoreDistribution.good : Nat) : ℚ) / (s.totalEvals : ℚ)) * 100))) :=
  C10_buckets_partition [rowA] "u" nowC (some 1) _
    (by
      rw [GETdb_eq]
      have h1 : (1 : Int).toNat = 1 := rfl
      norm_num [sortedMatching, matchesQuery, buildStats, dailyPointFor, acc0,
        stepRow, jsRound, round1, round0, startTs, startDayIdx, todayIdx, nowC,
        rowA, secondsPerDay, List.insertionSort, List.orderedInsert,
        dateKeyFromCreatedAt, List.range_succ, h1, pageSize, offsetCeiling])

/-- C1: for every positive `days = n`, the `dailyTrends` series has exactly
`n` entries, one per UTC calendar day, with dates increasing by exactly one
calendar day and the last entry equal to today (UTC); a day with no matching
records is emitted as `{date, count: 0, avgScore: 0, avgLatency: 0}`, never
omitted. -/
theorem C1_dailyTrends_shape (db : List EvalRow) (uid : String) (now : Nat)
    (n : Nat) (s : StatsData) (hn : 0 < n)
    (hs : GETdb db uid now (some (n : Int)) = Except.ok s) :
    s.dailyTrends.length = n
    ∧ s.dailyTrends.map DailyPoint.date
        = (List.range n).map (fun (i : Nat) => startDayIdx now (n : Int) + (i : Int))
    ∧ (s.dailyTrends.map DailyPoint.date).getLast? = some (todayIdx now)
    ∧ ∀ i (hi : i < s.dailyTrends.length),
        db.countP (fun r => onDay (startDayIdx now (n : Int) + (i : Int)) r
            && matchesQuery uid (startTs now (n : Int)) r) = 0 →
        s.dailyTrends.get ⟨i, hi⟩
          = ⟨startDayIdx now (n : Int) + (i : Int), 0, 0, 0⟩ := by
  rw [GETdb_eq] at hs
  injection hs with hs
  subst hs
  simp only [buildStats, Option.getD_some, Int.toNat_ofNat]
  have hdates : ((List.range n).map fun (idx : Nat) =>
        dailyPointFor
          ((List.take offsetCeiling (sortedMatching db uid (startTs now (n : Int)))).foldl
            stepRow acc0)
          (startDayIdx now (n : Int) + (idx : Int))).map DailyPoint.date
      = (List.range n).map (fun (i : Nat) => startDayIdx now (n : Int) + (i : Int)) := by
    rw [List.map_map]
    exact List.map_congr_left fun i _ => dailyPointFor_date _ _
  refine ⟨by simp, hdates, ?_, ?_⟩
  · rw [hdates, List.getLast?_eq_getElem?]
    have hlen : ((List.range n).map
        fun (i : Nat) => startDayIdx now (n : Int) + (i : Int)).length = n := by simp
    rw [hlen, List.getElem?_map, List.getElem?_range (by omega : n - 1 < n),
      Option.map_some']
    congr 1
    unfold startDayIdx
    omega
  · intro i hi h0
    have hi2 : i < n := by simpa using hi
    have hget : (((List.range n).map fun (idx : Nat) =>
          dailyPointFor
            ((List.take offsetCeiling (sortedMatching db uid (startTs now (n : Int)))).foldl
              stepRow acc0)
            (startDayIdx now (n : Int) + (idx : Int))).get ⟨i, hi⟩)
        = dailyPointFor
            ((List.take offsetCeiling (sortedMatching db uid (startTs now (n : Int)))).foldl
              stepRow acc0)
            (startDayIdx now (n : Int) + (i : Int)) := by
      rw [List.get_eq_getElem, List.getElem_map, List.getElem_range]
    rw [hget]
    have hc1 : (List.take offsetCeiling (sortedMatching db uid (startTs now (n : Int)))).countP
          (onDay (startDayIdx now (n : Int) + (i : Int)))
        ≤ (sortedMatching db uid (startTs now (n : Int))).countP
            (onDay (startDayIdx now (n : Int) + (i : Int))) :=
      (List.take_sublist _ _).countP_le _
    have hc2 : (sortedMatching db uid (startTs now (n : Int))).countP
          (onDay (startDayIdx now (n : Int) + (i : Int)))
        = (db.filter (matchesQuery uid (startTs now (n : Int)))).countP
            (onDay (startDayIdx now (n : Int) + (i : Int))) :=
      (sortedMatching_perm db uid _).countP_eq _
    rw [hc2, List.countP_filter, h0] at hc1
    have hcount : (((List.take offsetCeiling
          (sortedMatching db uid (startTs now (n : Int)))).foldl stepRow acc0).daily
            (startDayIdx now (n : Int) + (i : Int))).count = 0 := by
      rw [foldl_stepRow_daily_count]
      show 0 + _ = 0
      omega
    simp [dailyPointFor, hcount]

/-- Witness for C1 at an empty store, two days. -/
theorem C1_witness :
    (let s : StatsData := ⟨0, 0, 0, 0, 0, [⟨99, 0, 0, 0⟩, ⟨100, 0, 0, 0⟩], ⟨0, 0, 0, 0⟩⟩
     s.dailyTrends.length = 2
     ∧ s.dailyTrends.map DailyPoint.date
         = (List.range 2).map (fun (i : Nat) => startDayIdx nowC (2 : Int) + (i : Int))
     ∧ (s.dailyTrends.map DailyPoint.date).getLast? = some (todayIdx nowC)
     ∧ ∀ i (hi : i < s.dailyTrends.length),
         ([] : List EvalRow).countP (fun r => onDay (startDayIdx nowC (2 : Int) + (i : Int)) r
             && matchesQuery "u" (startTs nowC (2 : Int)) r) = 0 →
         s.dailyTrends.get ⟨i, hi⟩
           = ⟨startDayIdx nowC (2 : Int) + (i : Int), 0, 0, 0⟩) :=
  C1_dailyTrends_shape [] "u" nowC 2 _ (by decide)
    (by
      rw [GETdb_eq]
      have h2 : (2 : Int).toNat = 2 := rfl
      norm_num [sortedMatching, matchesQuery, buildStats, dailyPointFor, acc0,
        stepRow, jsRound, round1, round0, startTs, startDayIdx, todayIdx, nowC,
        secondsPerDay, List.insertionSort, List.orderedInsert, dateKeyFromCreatedAt,
        List.range_succ, h2])

/-- A concrete row of the tenant timestamped two days after `nowC`. -/
def rowFuture : EvalRow := ⟨"u", 86400 * 102, 80, 100, none⟩

/-- Counterexample to C3 as stated: a record timestamped after `now` (two
days in the future) is counted — it contributes to `totalEvals`, which the
claimed window `[startOfUTCDay(now) − (days−1), now]` would forbid. -/
theorem C3_counterexample :
    (GETdb [rowFuture] "u" nowC (some 7)).map StatsData.totalEvals = Except.ok 1
    ∧ nowC < rowFuture.created_at := by
  constructor
  · rw [GETdb_eq]
    norm_num [sortedMatching, matchesQuery, buildStats, acc0, stepRow, startTs,
      startDayIdx, todayIdx, nowC, rowFuture, secondsPerDay, List.insertionSort,
      List.orderedInsert, dateKeyFromCreatedAt, Except.map, pageSize, offsetCeiling]
  · decide

/-- C3 (amended): the records the aggregator counts are exactly the
authenticated tenant's records with `created_at ≥ startOfUTCDay(now) −
(days−1) days` — a lower bound only, with no upper bound at `now`: the
response is a function of those records alone, and (under the page-count
ceiling) the reported total is exactly their number. -/
theorem C3_window_lower_bound_only (db : List EvalRow) (uid : String) (now : Nat)
    (d : Int)
    (hceil : (db.filter (matchesQuery uid (startTs now d))).length ≤ offsetCeiling) :
    GETdb db uid now (some d)
        = GETdb (db.filter (matchesQuery uid (startTs now d))) uid now (some d)
    ∧ (GETdb db uid now (some d)).map StatsData.totalEvals
        = Except.ok ((db.filter (matchesQuery uid (startTs now d))).length) := by
  have hidem : (db.filter (matchesQuery uid (startTs now d))).filter
        (matchesQuery uid (startTs now d))
      = db.filter (matchesQuery uid (startTs now d)) := by
    rw [List.filter_filter]
    exact List.filter_congr fun x _ => by simp
  constructor
  · rw [GETdb_eq, GETdb_eq]
    simp only [Option.getD_some]
    unfold sortedMatching
    rw [hidem]
  · rw [GETdb_eq]
    have hlen : (sortedMatching db uid (startTs now d)).length
        = (db.filter (matchesQuery uid (startTs now d))).length :=
      (sortedMatching_perm db uid _).length_eq
    simp only [Option.getD_some, Except.map, buildStats]
    rw [List.take_of_length_le (by rw [hlen]; exact hceil), foldl_stepRow_total, hlen]
    simp [acc0]

/-- Witness for the amended C3 at a one-row store. -/
theorem C3_witness :
    GETdb [rowA] "u" nowC (some 7)
        = GETdb ([rowA].filter (matchesQuery "u" (startTs nowC 7))) "u" nowC (some 7)
    ∧ (GETdb [rowA] "u" nowC (some 7)).map StatsData.totalEvals
        = Except.ok (([rowA].filter (matchesQuery "u" (startTs nowC 7))).length) :=
  C3_window_lower_bound_only [rowA] "u" nowC 7 (by decide)

/-- Counterexample to C4 as stated: with a record on a future calendar day
the whole-window total is 1 but the daily series (which only spans up to
today) sums to 0. -/
theorem C4_counterexample :
    (GETdb [rowFuture] "u" nowC (some 7)).map
        (fun s => ((s.dailyTrends.map DailyPoint.count).sum, s.totalEvals))
      = Except.ok (0, 1) := by
  rw [GETdb_eq]
  have h7 : (7 : Int).toNat = 7 := rfl
  norm_num [sortedMatching, matchesQuery, buildStats, dailyPointFor, acc0, stepRow,
    jsRound, round1, round0, startTs, startDayIdx, todayIdx, nowC, rowFuture,
    secondsPerDay, List.insertionSort, List.orderedInsert, dateKeyFromCreatedAt,
    Except.map, List.range_succ, pageSize, offsetCeiling, h7, Function.comp]

/-- C4 (amended): whenever every matching record of the tenant lies on a
UTC calendar day not after today — in particular whenever no record is
timestamped after `now` on a later day — the daily series counts sum to the
reported whole-window total. -/
theorem C4_daily_sum_eq_total (db : List EvalRow) (uid : String) (now : Nat)
    (n : Nat) (s : StatsData) (hn : 0 < n)
    (hpast : ∀ r ∈ db, matchesQuery uid (startTs now (n : Int)) r = true →
        dateKeyFromCreatedAt r.created_at ≤ todayIdx now)
    (hs : GETdb db uid now (some (n : Int)) = Except.ok s) :
    (s.dailyTrends.map DailyPoint.count).sum = s.totalEvals := by
  rw [GETdb_eq] at hs
  injection hs with hs
  subst hs
  simp only [buildStats, Option.getD_some, Int.toNat_ofNat]
  set L := (sortedMatching db uid (startTs now (n : Int))).take offsetCeiling with hL
  rw [List.map_map]
  have hmap : List.map (DailyPoint.count ∘ fun (idx : Nat) =>
        dailyPointFor (L.foldl stepRow acc0) (startDayIdx now (n : Int) + (idx : Int)))
        (List.range n)
      = List.map (fun (i : Nat) => L.countP (onDay (startDayIdx now (n : Int) + (i : Int))))
          (List.range n) := by
    refine List.map_congr_left fun i _ => ?_
    show (dailyPointFor _ _).count = _
    rw [dailyPointFor_count, foldl_stepRow_daily_count]
    show 0 + _ = _
    omega
  rw [hmap, sum_range_onDay, foldl_stepRow_total]
  have hall : ∀ r ∈ L, (decide (startDayIdx now (n : Int) ≤ dateKeyFromCreatedAt r.created_at
      ∧ dateKeyFromCreatedAt r.created_at < startDayIdx now (n : Int) + (n : Int))) = true := by
    intro r hr
    have hr2 : r ∈ sortedMatching db uid (startTs now (n : Int)) := List.mem_of_mem_take hr
    have hr3 : r ∈ db.filter (matchesQuery uid (startTs now (n : Int))) :=
      (sortedMatching_perm db uid _).mem_iff.mp hr2
    obtain ⟨hdb, hmatch⟩ := List.mem_filter.mp hr3
    have hts : startTs now (n : Int) ≤ (r.created_at : Int) := by
      have hm := hmatch
      simp only [matchesQuery, Bool.and_eq_true, decide_eq_true_eq] at hm
      exact hm.2
    have hlow : startDayIdx now (n : Int) ≤ dateKeyFromCreatedAt r.created_at := by
      refine startDay_le_dateKey ?_
      unfold startTs at hts
      exact_mod_cast hts
    have hup := hpast r hdb hmatch
    have htoday : todayIdx now = startDayIdx now (n : Int) + ((n : Int) - 1) := by
      unfold startDayIdx
      ring
    rw [decide_eq_true_eq]
    exact ⟨hlow, by omega⟩
  rw [List.countP_eq_length.mpr hall]
  show L.length = 0 + L.length
  omega

/-- Witness for the amended C4 at a one-row store on today's calendar day. -/
theorem C4_witness :
    ((⟨1, 80, 100, 100, 0, [⟨100, 1, 80, 100⟩], ⟨0, 1, 0, 0⟩⟩ :
        StatsData).dailyTrends.map DailyPoint.count).sum
      = (⟨1, 80, 100, 100, 0, [⟨100, 1, 80, 100⟩], ⟨0, 1, 0, 0⟩⟩ :
        StatsData).totalEvals :=
  C4_daily_sum_eq_total [rowA] "u" nowC 1 _ (by decide) (by decide)
    (by
      rw [GETdb_eq]
      have h1 : (1 : Int).toNat = 1 := rfl
      norm_num [sortedMatching, matchesQuery, buildStats, dailyPointFor, acc0,
        stepRow, jsRound, round1, round0, startTs, startDayIdx, todayIdx, nowC,
        rowA, secondsPerDay, List.insertionSort, List.orderedInsert,
        dateKeyFromCreatedAt, List.range_succ, h1, pageSize, offsetCeiling])

/-- If the fetches before offset `n · pageSize` return full pages and the
fetch at that offset errors, the loop returns exactly that error. -/
theorem aggPages_error_propagates (fetch : Nat → Except String (List EvalRow))
    (e : String) :
    ∀ (n k offset : Nat) (a : Acc), n < k →
      (∀ m, m < n → ∃ p, fetch (offset + m * pageSize) = Except.ok p
        ∧ p.length = pageSize) →
      fetch (offset + n * pageSize) = Except.error e →
      aggPages fetch k offset a = Except.error e := by
  intro n
  induction n with
  | zero =>
    intro k offset a hk hfull herr
    obtain ⟨k2, rfl⟩ : ∃ k2, k = k2 + 1 := ⟨k - 1, by omega⟩
    have h0 : fetch offset = Except.error e := by simpa using herr
    simp [aggPages, h0]
  | succ n ih =>
    intro k offset a hk hfull herr
    obtain ⟨k2, rfl⟩ : ∃ k2, k = k2 + 1 := ⟨k - 1, by omega⟩
    obtain ⟨p, hp, hplen⟩ := hfull 0 (Nat.succ_pos n)
    have hp0 : fetch offset = Except.ok p := by simpa using hp
    have hstep : aggPages fetch (k2 + 1) offset a
        = aggPages fetch k2 (offset + pageSize) (p.foldl stepRow a) := by
      simp [aggPages, hp0, hplen, pageSize]
    rw [hstep]
    refine ih k2 (offset + pageSize) (p.foldl stepRow a) (by omega) ?_ ?_
    · intro m hm
      obtain ⟨q, hq, hqlen⟩ := hfull (m + 1) (by omega)
      refine ⟨q, ?_, hqlen⟩
      rw [show offset + pageSize + m * pageSize = offset + (m + 1) * pageSize by ring]
      exact hq
    · rw [show offset + pageSize + n * pageSize = offset + (n + 1) * pageSize by ring]
      exact herr

/-- C6: if a page fetch returns an error (after any number of full pages,
within the loop bound), the aggregator aborts and returns exactly that
error — never a partial or zero-filled `AggregateStats` payload, so zero
data (`Except.ok`) and error (`Except.error`) remain distinguishable. -/
theorem C6_page_error_aborts (fetchAt : Int → Nat → Except String (List EvalRow))
    (now : Nat) (daysParam : Option Int) (n : Nat) (e : String)
    (hn : n < maxPages)
    (hfull : ∀ m, m < n → ∃ p,
        fetchAt (startTs now (daysParam.getD 7)) (m * pageSize) = Except.ok p
          ∧ p.length = pageSize)
    (herr : fetchAt (startTs now (daysParam.getD 7)) (n * pageSize) = Except.error e) :
    GETwith fetchAt now daysParam = Except.error e := by
  unfold GETwith
  rw [aggPages_error_propagates (fetchAt (startTs now (daysParam.getD 7))) e n maxPages 0
    acc0 hn (by simpa using hfull) (by simpa using herr)]

/-- A store whose page fetches always fail. -/
def failFetch : Int → Nat → Except String (List EvalRow) :=
  fun _ _ => Except.error "boom"

/-- Witness for C6: with a failing store the route surfaces the error. -/
theorem C6_witness : GETwith failFetch 0 (some 7) = Except.error "boom" :=
  C6_page_error_aborts failFetch 0 (some 7) 0 "boom" (by decide)
    (fun m hm => absurd hm (Nat.not_lt_zero m)) rfl

/-- Counterexample to C7 as stated: a negative `days` (here −3) is not
rejected with an error — the request is processed and answers `200` with an
all-zero payload and an empty daily series. -/
theorem C7_counterexample :
    GETdb [rowA] "u" nowC (some (-3)) = Except.ok ⟨0, 0, 0, 0, 0, [], ⟨0, 0, 0, 0⟩⟩ := by
  rw [GETdb_eq]
  have hneg : ((-3 : Int)).toNat = 0 := rfl
  norm_num [sortedMatching, matchesQuery, buildStats, acc0, startTs, startDayIdx,
    todayIdx, nowC, rowA, secondsPerDay, List.insertionSort, List.orderedInsert,
    round1, round0, jsRound, hneg, pageSize, offsetCeiling]

/-- C7 (amended): a missing `days` parameter defaults to 7; a negative (or
zero) `days` is not rejected — the request is silently processed and
succeeds, with an empty `dailyTrends` series. -/
theorem C7_default_and_negative_days (db : List EvalRow) (uid : String) (now : Nat)
    (d : Int) (hd : d ≤ 0) :
    GETdb db uid now none = GETdb db uid now (some 7)
    ∧ (GETdb db uid now (some d)).map StatsData.dailyTrends = Except.ok [] := by
  constructor
  · rfl
  · rw [GETdb_eq]
    simp only [Option.getD_some, Except.map, buildStats]
    rw [Int.toNat_of_nonpos hd]
    simp

/-- Witness for the amended C7. -/
theorem C7_witness :
    GETdb [rowA] "u" nowC none = GETdb [rowA] "u" nowC (some 7)
    ∧ (GETdb [rowA] "u" nowC (some (-3))).map StatsData.dailyTrends = Except.ok [] :=
  C7_default_and_negative_days [rowA] "u" nowC (-3) (by decide)

/-- A store holding one more matching row than the loop's offset ceiling. -/
def bigDb : List EvalRow := List.replicate (offsetCeiling + 1) rowA

theorem bigDb_filter : bigDb.filter (matchesQuery "u" (startTs nowC 7)) = bigDb := by
  rw [List.filter_eq_self]
  intro r hr
  rw [List.eq_of_mem_replicate hr]
  decide

theorem bigDb_sorted : sortedMatching bigDb "u" (startTs nowC 7) = bigDb := by
  unfold sortedMatching
  rw [bigDb_filter]
  have hperm := List.perm_insertionSort
    (fun r1 r2 : EvalRow => r1.created_at ≤ r2.created_at) bigDb
  show _ = List.replicate (offsetCeiling + 1) rowA
  refine List.eq_replicate_iff.mpr ⟨?_, ?_⟩
  · rw [hperm.length_eq]
    simp [bigDb]
  · intro b hb
    exact List.eq_of_mem_replicate (hperm.mem_iff.mp hb)

/-- When more rows match than the offset ceiling, the loop consumes exactly
the first `offsetCeiling` rows and the reported total is `offsetCeiling`. -/
theorem total_at_ceiling (db : List EvalRow) (uid : String) (now : Nat) (d : Int)
    (hbig : offsetCeiling < (db.filter (matchesQuery uid (startTs now d))).length) :
    (GETdb db uid now (some d)).map StatsData.totalEvals = Except.ok offsetCeiling := by
  rw [GETdb_eq]
  simp only [Option.getD_some, Except.map, buildStats]
  have hlen : (sortedMatching db uid (startTs now d)).length
      = (db.filter (matchesQuery uid (startTs now d))).length :=
    (sortedMatching_perm db uid _).length_eq
  have htk : ((sortedMatching db uid (startTs now d)).take offsetCeiling).length
      = offsetCeiling := by
    rw [List.length_take]
    omega
  rw [foldl_stepRow_total, htk]
  simp [acc0]

/-- The oversized store has `offsetCeiling + 1` matching rows. -/
theorem bigDb_matching_count :
    offsetCeiling < (bigDb.filter (matchesQuery "u" (startTs nowC 7))).length := by
  rw [bigDb_filter]
  unfold bigDb
  rw [List.length_replicate]
  omega

/-- Counterexample to C8 as stated: with 100001 matching rows the offset
ceiling is reached, yet the computation is a normal successful completion
returning the partial totals of the first 100000 rows — not a reported
fatal/aborted condition. -/
theorem C8_counterexample :
    (GETdb bigDb "u" nowC (some 7)).map StatsData.totalEvals = Except.ok offsetCeiling
    ∧ bigDb.countP (matchesQuery "u" (startTs nowC 7)) = offsetCeiling + 1 := by
  constructor
  · exact total_at_ceiling bigDb "u" nowC 7 bigDb_matching_count
  · rw [List.countP_eq_length_filter, bigDb_filter]
    unfold bigDb
    rw [List.length_replicate]

/-- C8 (amended): when more rows match than the loop's offset ceiling, the
aggregator completes normally and silently returns a successful payload
whose total covers exactly the first 100000 rows, rather than reporting the
truncation to the caller. -/
theorem C8_ceiling_truncates_silently (db : List EvalRow) (uid : String) (now : Nat)
    (d : Int)
    (hbig : offsetCeiling < (db.filter (matchesQuery uid (startTs now d))).length) :
    (GETdb db uid now (some d)).map StatsData.totalEvals = Except.ok offsetCeiling :=
  total_at_ceiling db uid now d hbig

/-- Witness for the amended C8 at the concrete oversized store. -/
theorem C8_witness :
    (GETdb bigDb "u" nowC (some 7)).map StatsData.totalEvals = Except.ok offsetCeiling :=
  C8_ceiling_truncates_silently bigDb "u" nowC 7 bigDb_matching_count

/-! ## The client request cache

Modelled from the spec: the repository's client cache module (`@/lib/cache`,
exporting `cachedFetch`, `clearCache` and `CachedResponse`) is not among the
provided sources — only its callers are.  The model below follows §4.1 of
the specification: a process-wide store maps a request key to a payload with
an absolute expiry timestamp; a valid (non-expired) entry is returned with
`fromCache = true` and no network access; otherwise the network call is
performed and, when the TTL is positive, its payload is stored with
`expiresAt = now + ttlMs`; a TTL of 0 or negative behaves as never-cache
(§4.1 edge cases, §8): the call always performs the network fetch and
neither reads nor writes the store. -/

/-- Modelled from the spec: one stored cache entry (`CacheEntry`, §3). -/
structure CacheEntry where
  key : String
  payload : String
  expiresAt : Int
deriving DecidableEq, Repr

/-- Modelled from the spec: the process-wide in-memory store. -/
structure CacheState where
  entries : List CacheEntry
deriving DecidableEq, Repr

/-- Modelled from the spec: look up a fresh (non-expired) entry for a key;
an entry is valid while `now < expiresAt`. -/
def lookupFresh (st : CacheState) (key : String) (now : Int) : Option String :=
  (st.entries.find? fun en => en.key == key && decide (now < en.expiresAt)).map
    CacheEntry.payload

/-- Modelled from the spec: `cachedFetch(url, options, ttlMs)`, sequentially.
Returns the payload, the `fromCache` flag, and the updated store; `network`
is the payload the transport would deliver. -/
def cachedFetch (st : CacheState) (now : Int) (key : String) (ttlMs : Int)
    (network : String) : String × Bool × CacheState :=
  if ttlMs ≤ 0 then (network, false, st)
  else
    match lookupFresh st key now with
    | some p => (p, true, st)
    | none =>
      (network, false,
        ⟨⟨key, network, now + ttlMs⟩ :: st.entries.filter fun en => !(en.key == key)⟩)

/-- C9: a `cachedFetch` call with `ttlMs = 0` (or negative) always performs
the network call — it returns the network payload with `fromCache = false`,
never a previously stored entry, and leaves the store unchanged (stores
nothing), whatever entries the store already holds for that key. -/
theorem C9_zero_ttl_never_caches (st : CacheState) (now : Int) (key : String)
    (ttlMs : Int) (network : String) (h : ttlMs ≤ 0) :
    cachedFetch st now key ttlMs network = (network, false, st) := by
  simp [cachedFetch, h]

/-- Witness for C9: with a fresh entry for the key already stored, a
`ttlMs = 0` call still returns the network payload and keeps the store
unchanged. -/
theorem C9_witness :
    cachedFetch ⟨[⟨"k", "old", 999999⟩]⟩ 5 "k" 0 "fresh"
      = ("fresh", false, ⟨[⟨"k", "old", 999999⟩]⟩) :=
  C9_zero_ttl_never_caches ⟨[⟨"k", "old", 999999⟩]⟩ 5 "k" 0 "fresh" (by decide)

end Caliber
